import Mathlib

/-!
# Verification of the taxi dashboard filter-and-aggregate engine

Shallow embedding of `src/app.py` (Geospatial-taxi-dashboard): the data
model, the time-of-day bucketing, the filter chain of `update_dashboard`,
and the four aggregate projections. Timestamps are modelled as integers
(full-timestamp comparison is integer comparison), real-valued columns
(`trip_distance`, `lat`, `lon`) as rationals, and the pandas DataFrame as
an ordered list of records. The DBSCAN clustering stage lives in an
external library, so it is modelled from the algorithm semantics fixed in
section 4.2 of the specification.
-/

namespace Taxi

/-- Time-of-day bucket, the four checklist values of the `time-of-day`
control in `app.py`. -/
inductive Period where
  | morning
  | afternoon
  | evening
  | night
deriving DecidableEq

/-- One trip event: a row of the enriched DataFrame `df` of `app.py`
(after the derived columns `hour`, `date`, `lat`, `lon`, `cluster` have
been added). `pickup_time` stands for the full `tpep_pickup_datetime`
timestamp, modelled as an integer so that comparison is total order
comparison. -/
structure Record where
  pickup_time : Int
  hour : Nat
  passenger_count : Nat
  trip_distance : Rat
  lat : Rat
  lon : Rat
  cluster : Int
deriving DecidableEq

/-- The five user-tunable inputs of the `update_dashboard` callback:
`start`, `end`, `passengers`, `distance = [lo, hi]`, `tod`. -/
structure FilterSpec where
  date_start : Int
  date_end : Int
  min_passengers : Nat
  distance_lo : Rat
  distance_hi : Rat
  time_periods : List Period
deriving DecidableEq

/-- The process-wide state: the loaded, feature-derived and clustered
DataFrame `df`, fixed before any interaction. -/
structure DashState where
  dataset : List Record
deriving DecidableEq

/-- The function `period` defined inside `update_dashboard` in `app.py`:
hour in [6,12) is morning, [12,18) afternoon, [18,24) evening, and
everything else (the hours below 6) night. -/
def period (h : Nat) : Period :=
  if 6 ≤ h ∧ h < 12 then .morning
  else if 12 ≤ h ∧ h < 18 then .afternoon
  else if 18 ≤ h ∧ h < 24 then .evening
  else .night

/-- The filter chain of `update_dashboard`: starting from a copy of `df`,
four successive boolean-mask filters (date range, passenger count,
distance range, time-of-day bucket membership), each preserving row
order. -/
def filterRecords (spec : FilterSpec) (ds : List Record) : List Record :=
  let dff := ds
  let dff := dff.filter (fun r =>
    decide (spec.date_start ≤ r.pickup_time) && decide (r.pickup_time ≤ spec.date_end))
  let dff := dff.filter (fun r => decide (spec.min_passengers ≤ r.passenger_count))
  let dff := dff.filter (fun r =>
    decide (spec.distance_lo ≤ r.trip_distance) && decide (r.trip_distance ≤ spec.distance_hi))
  let dff := dff.filter (fun r => decide (period r.hour ∈ spec.time_periods))
  dff

/-- The map projection: `(lat, lon, cluster)` triples of the filtered
rows, as passed to `px.scatter_mapbox(dff, lat='lat', lon='lon',
color='cluster')`. -/
def spatialView (ds : List Record) : List (Rat × Rat × Int) :=
  ds.map (fun r => (r.lat, r.lon, r.cluster))

/-- The hourly projection `dff.groupby(hour).size()`: one
`(hour, count)` row per distinct hour present in the filtered data, keys
sorted ascending (pandas groupby sorts its keys). -/
def hourlyCounts (ds : List Record) : List (Nat × Nat) :=
  (((ds.map (fun r => r.hour)).dedup).mergeSort (fun a b => Nat.ble a b)).map
    (fun h => (h, ds.countP (fun r => r.hour == h)))

/-- The distance projection of `px.histogram(dff, x=trip_distance,
nbins=30)` as the specification reads it: 30 equal-width bins spanning
the min/max `trip_distance` range of the filtered data, reporting only
non-empty bins as `(bin index, count)`; empty input yields an empty
histogram. -/
def distanceHistogram (ds : List Record) : List (Nat × Nat) :=
  match ds with
  | [] => []
  | r0 :: _ =>
    let dists := ds.map (fun r => r.trip_distance)
    let lo := dists.foldl min r0.trip_distance
    let hi := dists.foldl max r0.trip_distance
    let w := (hi - lo) / 30
    let bin := fun (x : Rat) => min (((x - lo) / w).floor.toNat) 29
    (List.range 30).filterMap (fun i =>
      let c := ds.countP (fun r => bin r.trip_distance == i)
      if c = 0 then none else some (i, c))

/-- The passenger projection `dff[passenger_count].value_counts()` with
columns renamed to Passengers and Trips: one `(passenger_count, count)`
row per distinct passenger count present, ordered by descending count
(pandas `value_counts` sorts by count; its tie order is not specified
and no claim depends on it). -/
def passengerCounts (ds : List Record) : List (Nat × Nat) :=
  (((ds.map (fun r => r.passenger_count)).dedup).map
    (fun p => (p, ds.countP (fun r => r.passenger_count == p)))).mergeSort
    (fun a b => Nat.ble b.2 a.2)

/-- The four aggregate projections returned (as figures) by one
`update_dashboard` call. -/
structure AggregateResult where
  spatial : List (Rat × Rat × Int)
  hourly : List (Nat × Nat)
  distHist : List (Nat × Nat)
  passengers : List (Nat × Nat)
deriving DecidableEq

/-- One filter-and-aggregate pass: `update_dashboard` works on a copy of
the global `df` (`dff = df.copy()`), filters it, computes the four
projections, and leaves the global state untouched — modelled by
returning the state unchanged alongside the result. -/
def update_dashboard (st : DashState) (spec : FilterSpec) : DashState × AggregateResult :=
  let dff := filterRecords spec st.dataset
  (st,
    { spatial := spatialView dff
      hourly := hourlyCounts dff
      distHist := distanceHistogram dff
      passengers := passengerCounts dff })

/-- A sequence of interactions: successive `update_dashboard` calls, each
threading the process-wide state. -/
def runPasses (st : DashState) (specs : List FilterSpec) : DashState :=
  specs.foldl (fun s spec => (update_dashboard s spec).1) st

/-- Bucketing the hourly projection into the four time-of-day periods:
the total trip count of the rows whose hour falls in period `p`. -/
def bucketCount (hc : List (Nat × Nat)) (p : Period) : Nat :=
  ((hc.filter (fun x => period x.1 == p)).map (fun x => x.2)).sum

/-- Squared Euclidean distance between two points of the standardized
2D coordinate space (squares avoid irrational norms; comparing it with
`eps * eps` is equivalent to comparing the Euclidean distance with a
non-negative `eps`). -/
def sqDist (p q : Rat × Rat) : Rat :=
  (p.1 - q.1) * (p.1 - q.1) + (p.2 - q.2) * (p.2 - q.2)

/-- Modelled from the spec: the DBSCAN implementation itself lives in the
external sklearn library, not in `src/`; section 4.2 fixes its
semantics. The eps-neighborhood of point `i`: the indices of all points
within Euclidean distance `eps` of point `i`, the point itself
included. -/
def nbhd (e : Rat) (pts : List (Rat × Rat)) (i : Nat) : List Nat :=
  (List.range pts.length).filter
    (fun j => decide (sqDist (pts.getD i (0, 0)) (pts.getD j (0, 0)) ≤ e * e))

/-- Modelled from the spec: a point is a core point if at least
`min_samples` points (itself included) lie within distance `eps`. -/
def isCore (e : Rat) (m : Nat) (pts : List (Rat × Rat)) (i : Nat) : Bool :=
  decide (m ≤ (nbhd e pts i).length)

/-- Modelled from the spec: one expansion step of cluster formation —
keep the points already collected and absorb every point within `eps` of
a core point already collected (density-connecting core points and
absorbing border points). -/
def expandStep (e : Rat) (m : Nat) (pts : List (Rat × Rat)) (s : List Nat) : List Nat :=
  (List.range pts.length).filter (fun j =>
    s.contains j || s.any (fun i => isCore e m pts i && (nbhd e pts i).contains j))

/-- Modelled from the spec: the set of points density-reachable from
point `i` — the expansion step iterated to its fixpoint (`pts.length`
iterations suffice since the set grows monotonically and is bounded by
the number of points). -/
def clusterSet (e : Rat) (m : Nat) (pts : List (Rat × Rat)) (i : Nat) : List Nat :=
  Nat.iterate (expandStep e m pts) pts.length [i]

/-- Modelled from the spec: one step of cluster discovery — point `i`
becomes a new cluster representative when it is a core point not
reachable from any earlier representative. -/
def repStep (e : Rat) (m : Nat) (pts : List (Rat × Rat)) (acc : List Nat) (i : Nat) :
    List Nat :=
  if isCore e m pts i && acc.all (fun rep => !(clusterSet e m pts rep).contains i)
  then acc ++ [i] else acc

/-- Modelled from the spec: one representative core point per cluster,
in discovery order — a core point is a new representative unless it is
already reachable from an earlier representative. -/
def clusterReps (e : Rat) (m : Nat) (pts : List (Rat × Rat)) : List Nat :=
  (List.range pts.length).foldl (repStep e m pts) []

/-- Modelled from the spec: the cluster label of point `j` — the
discovery-order index of the first cluster whose reachable set contains
`j`, and the noise label −1 when no cluster reaches `j`. -/
def dbscanLabel (e : Rat) (m : Nat) (pts : List (Rat × Rat)) (j : Nat) : Int :=
  match (clusterReps e m pts).findIdx?
      (fun rep => (clusterSet e m pts rep).contains j) with
  | some k => (k : Int)
  | none => -1

/-- Modelled from the spec: the label column `db.labels_` attached to
the records, one label per point in point order. -/
def dbscanLabels (e : Rat) (m : Nat) (pts : List (Rat × Rat)) : List Int :=
  (List.range pts.length).map (dbscanLabel e m pts)

/-- The neighborhood radius of `DBSCAN(eps=0.15, min_samples=40)` in
`app.py`, in standardized units. -/
def eps : Rat := 15 / 100

/-- The `min_samples` parameter of `DBSCAN(eps=0.15, min_samples=40)` in
`app.py`. -/
def min_samples : Nat := 40

/-- Sample record R1 of the example scenario in section 8 of the spec:
hour 7, 2 passengers, distance 1.0. -/
def sampleR1 : Record := ⟨10, 7, 2, 1, 0, 0, 0⟩

/-- Sample record R2 of the example scenario: hour 14, 1 passenger,
distance 5.0. -/
def sampleR2 : Record := ⟨20, 14, 1, 5, 0, 0, 1⟩

/-- Sample record R3, after the example scenario: hour 20, 3
passengers, distance 19 (an integral distance near the upper bound, kept
integral so that concrete evaluation never normalizes a fraction). -/
def sampleR3 : Record := ⟨30, 20, 3, 19, 0, 0, -1⟩

/-- The three-record sample dataset of the example scenario. -/
def sampleDataset : List Record := [sampleR1, sampleR2, sampleR3]

/-- The FilterSpec of the example scenario: min_passengers 2, distance
range [0, 20], periods morning and evening, and a date range covering
all three sample records. -/
def sampleSpec : FilterSpec := ⟨0, 100, 2, 0, 20, [.morning, .evening]⟩

/-- The sample FilterSpec loosened to min_passengers 1, all other fields
unchanged. -/
def sampleSpecLoose : FilterSpec := ⟨0, 100, 1, 0, 20, [.morning, .evening]⟩

/-- A non-monotonic FilterSpec: date_start 100 is greater than date_end
0; other fields as in the sample spec. -/
def badSpec : FilterSpec := ⟨100, 0, 2, 0, 20, [.morning, .evening]⟩

/-- A FilterSpec whose passenger threshold 100 excludes every sample
record. -/
def excludeAllSpec : FilterSpec := ⟨0, 100, 100, 0, 20, [.morning, .evening]⟩

/-- Membership characterization of the filter chain: a record is in the
filtered view exactly when it is in the dataset and satisfies all four
predicates. -/
theorem mem_filterRecords (spec : FilterSpec) (ds : List Record) (r : Record) :
    r ∈ filterRecords spec ds ↔
      r ∈ ds ∧
      (spec.date_start ≤ r.pickup_time ∧ r.pickup_time ≤ spec.date_end) ∧
      spec.min_passengers ≤ r.passenger_count ∧
      (spec.distance_lo ≤ r.trip_distance ∧ r.trip_distance ≤ spec.distance_hi) ∧
      period r.hour ∈ spec.time_periods := by
  simp only [filterRecords, List.mem_filter, Bool.and_eq_true, decide_eq_true_eq]
  tauto

/-- The filter chain returns a sublist (ordered subsequence) of its
input. -/
theorem filterRecords_sublist (spec : FilterSpec) (ds : List Record) :
    List.Sublist (filterRecords spec ds) ds := by
  unfold filterRecords
  exact (List.filter_sublist _).trans ((List.filter_sublist _).trans
    ((List.filter_sublist _).trans (List.filter_sublist _)))

/-- Any number of dashboard passes leaves the process-wide state
untouched. -/
theorem runPasses_eq (st : DashState) (specs : List FilterSpec) :
    runPasses st specs = st := by
  induction specs with
  | nil => rfl
  | cons s ss ih => exact ih

/-- An unsatisfiable range (dates or distances) empties the filtered
view. -/
theorem filterRecords_nonmonotonic (spec : FilterSpec) (ds : List Record)
    (h : spec.date_end < spec.date_start ∨ spec.distance_hi < spec.distance_lo) :
    filterRecords spec ds = [] := by
  rw [List.eq_nil_iff_forall_not_mem]
  intro r hr
  rw [mem_filterRecords] at hr
  obtain ⟨-, ⟨hd1, hd2⟩, -, ⟨hl1, hl2⟩, -⟩ := hr
  rcases h with h | h
  · exact absurd (le_trans hd1 hd2) (not_le.mpr h)
  · exact absurd (le_trans hl1 hl2) (not_le.mpr h)

/-- A pass whose filtered view is empty returns the state unchanged and
four empty projections. -/
theorem update_dashboard_empty (st : DashState) (spec : FilterSpec)
    (h : filterRecords spec st.dataset = []) :
    update_dashboard st spec = (st, ⟨[], [], [], []⟩) := by
  simp only [update_dashboard, h]
  simp [spatialView, hourlyCounts, distanceHistogram, passengerCounts]

/-- C1: for every Dataset and FilterSpec, the filter output contains
exactly the records satisfying all four predicates — the inclusive date
range on the full timestamp, the passenger threshold, the inclusive
distance range (a record with `trip_distance` exactly `distance_hi` is
included, one above it is excluded), and time-of-day bucket membership. -/
theorem C1_filter_exact (spec : FilterSpec) (ds : List Record) (r : Record) :
    r ∈ filterRecords spec ds ↔
      r ∈ ds ∧
      (spec.date_start ≤ r.pickup_time ∧ r.pickup_time ≤ spec.date_end) ∧
      spec.min_passengers ≤ r.passenger_count ∧
      (spec.distance_lo ≤ r.trip_distance ∧ r.trip_distance ≤ spec.distance_hi) ∧
      period r.hour ∈ spec.time_periods :=
  mem_filterRecords spec ds r

/-- C2: the time-of-day bucket is determined solely by the hour — for
every hour value below 24, the bucket is morning exactly on [6,12),
afternoon exactly on [12,18), evening exactly on [18,24), and night
exactly on [0,6); the four half-open buckets are exhaustive with no
gaps, so every hour falls in exactly one bucket. -/
theorem C2_period_buckets (h : Nat) (hh : h < 24) :
    (period h = Period.morning ↔ 6 ≤ h ∧ h < 12) ∧
    (period h = Period.afternoon ↔ 12 ≤ h ∧ h < 18) ∧
    (period h = Period.evening ↔ 18 ≤ h ∧ h < 24) ∧
    (period h = Period.night ↔ h < 6) := by
  interval_cases h <;> decide

/-- Witness for C2 at hour 7 (a morning hour). -/
theorem C2_period_buckets_witness :
    7 < 24 ∧
    ((period 7 = Period.morning ↔ 6 ≤ 7 ∧ 7 < 12) ∧
     (period 7 = Period.afternoon ↔ 12 ≤ 7 ∧ 7 < 18) ∧
     (period 7 = Period.evening ↔ 18 ≤ 7 ∧ 7 < 24) ∧
     (period 7 = Period.night ↔ 7 < 6)) :=
  ⟨by decide, C2_period_buckets 7 (by decide)⟩

/-- C3: for every FilterSpec the filtered output is a sublist of the
input dataset — an ordered subsequence, so no record is reordered and no
record is duplicated. -/
theorem C3_filter_stable (spec : FilterSpec) (ds : List Record) :
    List.Sublist (filterRecords spec ds) ds :=
  filterRecords_sublist spec ds

/-- C4: no interaction mutates the shared Dataset — after any number of
`update_dashboard` passes the state is unchanged, one pass returns its
state unchanged, and every record of a filtered view is a record of the
dataset itself, so its cluster label (assigned once at startup) is
exactly the label it carries in the dataset. -/
theorem C4_dataset_immutable (st : DashState) (specs : List FilterSpec)
    (spec : FilterSpec) (r : Record) (hr : r ∈ filterRecords spec st.dataset) :
    (runPasses st specs).dataset = st.dataset ∧
    (update_dashboard st spec).1 = st ∧
    r ∈ st.dataset :=
  ⟨by rw [runPasses_eq], rfl, (filterRecords_sublist spec st.dataset).subset hr⟩

/-- Witness for C4 on the sample dataset with two successive passes. -/
theorem C4_dataset_immutable_witness :
    sampleR1 ∈ filterRecords sampleSpec (DashState.mk sampleDataset).dataset ∧
    ((runPasses ⟨sampleDataset⟩ [sampleSpec, badSpec]).dataset =
        (DashState.mk sampleDataset).dataset ∧
      (update_dashboard ⟨sampleDataset⟩ sampleSpec).1 = ⟨sampleDataset⟩ ∧
      sampleR1 ∈ (DashState.mk sampleDataset).dataset) :=
  ⟨by decide,
    C4_dataset_immutable ⟨sampleDataset⟩ [sampleSpec, badSpec] sampleSpec sampleR1 (by decide)⟩

/-- C5 counterexample: on a FilterSpec whose date_start exceeds its
date_end, `update_dashboard` does not fail — it returns a normal result
(state unchanged, all four projections empty) instead of surfacing an
error; the callback has no validation path at all. -/
theorem C5_counterexample :
    badSpec.date_end < badSpec.date_start ∧
    update_dashboard ⟨sampleDataset⟩ badSpec = (⟨sampleDataset⟩, ⟨[], [], [], []⟩) :=
  ⟨by decide, update_dashboard_empty ⟨sampleDataset⟩ badSpec (by decide)⟩

/-- C5 (amended): when the FilterSpec is non-monotonic — date_start
above date_end, or distance_lo above distance_hi — the pass does not
fail and raises no error: the corresponding range predicate is
unsatisfiable, so the pass returns a normal result whose filtered view
and four projections are all empty. -/
theorem C5_nonmonotonic_empty (st : DashState) (spec : FilterSpec)
    (h : spec.date_end < spec.date_start ∨ spec.distance_hi < spec.distance_lo) :
    filterRecords spec st.dataset = [] ∧
    update_dashboard st spec = (st, ⟨[], [], [], []⟩) :=
  ⟨filterRecords_nonmonotonic spec st.dataset h,
    update_dashboard_empty st spec (filterRecords_nonmonotonic spec st.dataset h)⟩

/-- Witness for amended C5: the non-monotonic sample spec over the
sample dataset yields the empty view and empty projections. -/
theorem C5_nonmonotonic_empty_witness :
    badSpec.date_end < badSpec.date_start ∧
    (filterRecords badSpec (DashState.mk sampleDataset).dataset = [] ∧
      update_dashboard ⟨sampleDataset⟩ badSpec = (⟨sampleDataset⟩, ⟨[], [], [], []⟩)) :=
  ⟨by decide, C5_nonmonotonic_empty ⟨sampleDataset⟩ badSpec (Or.inl (by decide))⟩

/-- C6: if the filter predicates exclude every record, the pass does not
fail: it returns the state unchanged and four well-defined empty
projections (empty spatial view, empty hourly counts, empty distance
histogram, empty passenger table). -/
theorem C6_empty_result (st : DashState) (spec : FilterSpec)
    (h : filterRecords spec st.dataset = []) :
    update_dashboard st spec = (st, ⟨[], [], [], []⟩) :=
  update_dashboard_empty st spec h

/-- Witness for C6: a passenger threshold of 100 excludes all three
sample records and the pass returns the four empty projections. -/
theorem C6_empty_result_witness :
    filterRecords excludeAllSpec (DashState.mk sampleDataset).dataset = [] ∧
    update_dashboard ⟨sampleDataset⟩ excludeAllSpec = (⟨sampleDataset⟩, ⟨[], [], [], []⟩) :=
  ⟨by decide, C6_empty_result ⟨sampleDataset⟩ excludeAllSpec (by decide)⟩

/-- C8: the pass is a pure function of dataset and FilterSpec — invoking
it twice with the same FilterSpec, threading the state returned by the
first call into the second, yields the identical AggregateResult and the
identical filtered view on both runs. -/
theorem C8_pass_pure (st : DashState) (spec : FilterSpec) :
    (update_dashboard (update_dashboard st spec).1 spec).2 =
      (update_dashboard st spec).2 ∧
    filterRecords spec ((update_dashboard st spec).1).dataset =
      filterRecords spec st.dataset :=
  ⟨rfl, rfl⟩

/-- The four period buckets partition any hourly table: summing the
bucketed counts over the four periods gives the total count of the
table. -/
theorem bucketCount_total (l : List (Nat × Nat)) :
    bucketCount l .morning + bucketCount l .afternoon +
      bucketCount l .evening + bucketCount l .night =
      (l.map (fun x => x.2)).sum := by
  induction l with
  | nil => rfl
  | cons x xs ih =>
    simp only [bucketCount] at ih ⊢
    cases hp : period x.1 <;>
      simp [List.filter_cons, hp] <;> omega

/-- The counts of the hourly projection sum to the number of records. -/
theorem sum_hourlyCounts (ds : List Record) :
    ((hourlyCounts ds).map (fun x => x.2)).sum = ds.length := by
  unfold hourlyCounts
  rw [List.map_map]
  rw [((List.mergeSort_perm ((ds.map (fun r => r.hour)).dedup)
      (fun a b => Nat.ble a b)).map
      ((fun x => x.2) ∘ (fun h => (h, ds.countP (fun r => r.hour == h))))).sum_eq]
  have hfun : ((fun (x : Nat × Nat) => x.2) ∘
      (fun h => (h, ds.countP (fun r => r.hour == h)))) =
      (fun h => (ds.map (fun r => r.hour)).count h) := by
    funext h
    simp only [Function.comp_apply, List.count_eq_countP, List.countP_map]
    exact rfl
  rw [hfun, List.sum_map_count_dedup_eq_length, List.length_map]

/-- C9: conservation — bucketing the counts of the hourly projection of
any dataset (in particular the unfiltered Dataset of a pass over every
time period) into the four periods and summing gives exactly the total
number of records. -/
theorem C9_conservation (ds : List Record) :
    bucketCount (hourlyCounts ds) .morning + bucketCount (hourlyCounts ds) .afternoon +
      bucketCount (hourlyCounts ds) .evening + bucketCount (hourlyCounts ds) .night =
      ds.length := by
  rw [bucketCount_total, sum_hourlyCounts]

/-- C10: the filter is antitone in `min_passengers` — if two FilterSpecs
agree on every other field and the first has the smaller (or equal)
passenger threshold, every record of the filtered output under the
stricter spec also appears in the filtered output under the looser
spec. -/
theorem C10_antitone_min_passengers (ds : List Record) (s1 s2 : FilterSpec)
    (h1 : s1.date_start = s2.date_start) (h2 : s1.date_end = s2.date_end)
    (h3 : s1.distance_lo = s2.distance_lo) (h4 : s1.distance_hi = s2.distance_hi)
    (h5 : s1.time_periods = s2.time_periods)
    (hp : s1.min_passengers ≤ s2.min_passengers)
    (r : Record) (hr : r ∈ filterRecords s2 ds) :
    r ∈ filterRecords s1 ds := by
  rw [mem_filterRecords] at hr ⊢
  obtain ⟨hmem, hd, hpas, hdist, hper⟩ := hr
  exact ⟨hmem, by rw [h1, h2]; exact hd, le_trans hp hpas,
    by rw [h3, h4]; exact hdist, by rw [h5]; exact hper⟩

/-- Witness for C10: loosening the sample spec from 2 to 1 minimum
passengers keeps R3 in the output. -/
theorem C10_antitone_min_passengers_witness :
    sampleSpecLoose.min_passengers ≤ sampleSpec.min_passengers ∧
    sampleR3 ∈ filterRecords sampleSpec sampleDataset ∧
    sampleR3 ∈ filterRecords sampleSpecLoose sampleDataset :=
  ⟨by decide, by decide,
    C10_antitone_min_passengers sampleDataset sampleSpecLoose sampleSpec rfl rfl
      rfl rfl rfl (by decide) sampleR3 (by decide)⟩

/-- A neighborhood never exceeds the point count. -/
theorem nbhd_length_le (e : Rat) (pts : List (Rat × Rat)) (i : Nat) :
    (nbhd e pts i).length ≤ pts.length := by
  have h := List.length_filter_le
    (fun j => decide (sqDist (pts.getD i (0, 0)) (pts.getD j (0, 0)) ≤ e * e))
    (List.range pts.length)
  simpa [nbhd] using h

/-- With fewer points than `min_samples`, no point is core. -/
theorem isCore_false_of_short (e : Rat) (m : Nat) (pts : List (Rat × Rat))
    (h : pts.length < m) (i : Nat) : isCore e m pts i = false := by
  have hb := nbhd_length_le e pts i
  simp only [isCore, decide_eq_false_iff_not]
  omega

/-- An in-range `getD` yields a member of the list. -/
theorem getD_mem_of_lt (l : List (Rat × Rat)) (i : Nat) (h : i < l.length) :
    l.getD i (0, 0) ∈ l := by
  simp [List.getD_eq_getElem?_getD, List.getElem?_eq_getElem h]

/-- If all distinct points lie strictly farther apart than `eps`, a
neighborhood holds at most the point itself. -/
theorem nbhd_length_le_one_of_far (e : Rat) (pts : List (Rat × Rat)) (i : Nat)
    (hi : i < pts.length)
    (hfar : ∀ a b, a < pts.length → b < pts.length → a ≠ b →
      e * e < sqDist (pts.getD a (0, 0)) (pts.getD b (0, 0))) :
    (nbhd e pts i).length ≤ 1 := by
  unfold nbhd
  rw [← List.countP_eq_length_filter]
  have h1 : List.countP
      (fun j => decide (sqDist (pts.getD i (0, 0)) (pts.getD j (0, 0)) ≤ e * e))
      (List.range pts.length) ≤
      List.countP (fun j => j == i) (List.range pts.length) := by
    apply List.countP_mono_left
    intro j hj hP
    have hjn : j < pts.length := List.mem_range.mp hj
    have hle := of_decide_eq_true hP
    by_contra hne
    have hji : i ≠ j := fun hij => hne (by simp [hij])
    exact absurd hle (not_le.mpr (hfar i j hi hjn hji))
  have h2 : List.countP (fun j => j == i) (List.range pts.length) ≤ 1 := by
    have hnd := List.nodup_iff_count_le_one.mp (List.nodup_range pts.length) i
    simpa [List.count_eq_countP] using hnd
  omega

/-- With `min_samples` at least 2 and all points mutually farther apart
than `eps`, no in-range point is core. -/
theorem isCore_false_of_far (e : Rat) (m : Nat) (pts : List (Rat × Rat))
    (hm : 2 ≤ m)
    (hfar : ∀ a b, a < pts.length → b < pts.length → a ≠ b →
      e * e < sqDist (pts.getD a (0, 0)) (pts.getD b (0, 0)))
    (i : Nat) (hi : i < pts.length) :
    isCore e m pts i = false := by
  have hb := nbhd_length_le_one_of_far e pts i hi hfar
  simp only [isCore, decide_eq_false_iff_not]
  omega

/-- With no in-range core point, cluster discovery finds no
representative. -/
theorem clusterReps_nil (e : Rat) (m : Nat) (pts : List (Rat × Rat))
    (hc : ∀ i, i < pts.length → isCore e m pts i = false) :
    clusterReps e m pts = [] := by
  unfold clusterReps
  have hgen : ∀ (l : List Nat), (∀ x ∈ l, x < pts.length) →
      l.foldl (repStep e m pts) [] = [] := by
    intro l
    induction l with
    | nil => intro _; rfl
    | cons x xs ih =>
      intro hx
      rw [List.foldl_cons]
      have hstep : repStep e m pts [] x = [] := by
        simp [repStep, hc x (hx x (List.mem_cons_self x xs))]
      rw [hstep]
      exact ih (fun y hy => hx y (List.mem_cons_of_mem x hy))
  exact hgen (List.range pts.length) (fun x hx => List.mem_range.mp hx)

/-- With no in-range core point, every label is the noise label −1. -/
theorem dbscanLabels_noise (e : Rat) (m : Nat) (pts : List (Rat × Rat))
    (hc : ∀ i, i < pts.length → isCore e m pts i = false) :
    dbscanLabels e m pts = List.replicate pts.length (-1) := by
  unfold dbscanLabels dbscanLabel
  rw [clusterReps_nil e m pts hc]
  show (List.range pts.length).map (fun _ => (-1 : Int)) = _
  rw [List.map_const', List.length_range]

/-- For a dataset of identical points, of count at least `min_samples`,
every point is core, the whole point set forms a single cluster, and
every label is 0 — not the noise label −1. -/
theorem dbscan_identical (e : Rat) (m : Nat) (pts : List (Rat × Rat)) (p : Rat × Rat)
    (hall : ∀ q ∈ pts, q = p) (hm : m ≤ pts.length) (hn : 0 < pts.length) :
    dbscanLabels e m pts = List.replicate pts.length 0 := by
  have hget : ∀ a, a < pts.length → pts.getD a (0, 0) = p := fun a ha =>
    hall _ (getD_mem_of_lt pts a ha)
  have hdist : ∀ a b, a < pts.length → b < pts.length →
      decide (sqDist (pts.getD a (0, 0)) (pts.getD b (0, 0)) ≤ e * e) = true := by
    intro a b ha hb
    rw [hget a ha, hget b hb]
    apply decide_eq_true
    have h0 : sqDist p p = 0 := by simp [sqDist]
    rw [h0]
    exact mul_self_nonneg e
  have hnbhd : ∀ i, i < pts.length → nbhd e pts i = List.range pts.length := by
    intro i hi
    unfold nbhd
    exact List.filter_eq_self.mpr (fun j hj => hdist i j hi (List.mem_range.mp hj))
  have hcore : ∀ i, i < pts.length → isCore e m pts i = true := by
    intro i hi
    unfold isCore
    apply decide_eq_true
    rw [hnbhd i hi, List.length_range]
    exact hm
  have hstep : ∀ s : List Nat, (∃ i, i ∈ s ∧ i < pts.length) →
      expandStep e m pts s = List.range pts.length := by
    rintro s ⟨i, his, hin⟩
    unfold expandStep
    apply List.filter_eq_self.mpr
    intro j hj
    have hcont : (nbhd e pts i).contains j = true := by
      rw [hnbhd i hin]
      simpa using hj
    have hany : s.any (fun i => isCore e m pts i && (nbhd e pts i).contains j) = true :=
      List.any_eq_true.mpr ⟨i, his, by rw [hcore i hin, hcont]; rfl⟩
    rw [hany, Bool.or_true]
  have hfix : ∀ k, Nat.iterate (expandStep e m pts) k (List.range pts.length) =
      List.range pts.length := by
    intro k
    induction k with
    | zero => rfl
    | succ k ih =>
      rw [Function.iterate_succ_apply, hstep (List.range pts.length)
        ⟨0, List.mem_range.mpr hn, hn⟩, ih]
  have hcs : clusterSet e m pts 0 = List.range pts.length := by
    unfold clusterSet
    obtain ⟨k, hk⟩ : ∃ k, pts.length = k + 1 := ⟨pts.length - 1, by omega⟩
    rw [hk, Function.iterate_succ_apply,
      hstep [0] ⟨0, List.mem_singleton.mpr rfl, hn⟩, hfix k, hk]
  have hrep0 : repStep e m pts [] 0 = [0] := by
    simp [repStep, hcore 0 hn]
  have hrepx : ∀ x, x < pts.length → repStep e m pts [0] x = [0] := by
    intro x hx
    unfold repStep
    simp only [List.all_cons, List.all_nil, Bool.and_true]
    have hcont : (List.range pts.length).contains x = true := by
      simpa using List.mem_range.mpr hx
    rw [hcs, hcont]
    simp
  have hfold : ∀ (l : List Nat), (∀ x ∈ l, x < pts.length) →
      l.foldl (repStep e m pts) [0] = [0] := by
    intro l
    induction l with
    | nil => intro _; rfl
    | cons x xs ih =>
      intro hx
      rw [List.foldl_cons, hrepx x (hx x (List.mem_cons_self x xs))]
      exact ih (fun y hy => hx y (List.mem_cons_of_mem x hy))
  have hreps : clusterReps e m pts = [0] := by
    unfold clusterReps
    obtain ⟨k, hk⟩ : ∃ k, pts.length = k + 1 := ⟨pts.length - 1, by omega⟩
    rw [hk, List.range_succ_eq_map, List.foldl_cons, hrep0]
    apply hfold
    intro x hx
    rw [hk]
    obtain ⟨j, hj, rfl⟩ := List.mem_map.mp hx
    exact Nat.succ_lt_succ (List.mem_range.mp hj)
  have hlabel : ∀ j, j < pts.length → dbscanLabel e m pts j = 0 := by
    intro j hj
    unfold dbscanLabel
    rw [hreps]
    have hmem : j ∈ clusterSet e m pts 0 := by
      rw [hcs]
      exact List.mem_range.mpr hj
    simp [hmem]
  unfold dbscanLabels
  rw [List.map_congr_left (fun j hj => hlabel j (List.mem_range.mp hj)),
    List.map_const', List.length_range]

/-- C7 counterexample: 40 identical points — exactly `min_samples` many,
all pairwise at standardized distance 0 — are NOT labelled noise by the
clustering: every point is a core point, the input forms a single
cluster, and every label is 0 rather than −1. -/
theorem C7_counterexample :
    dbscanLabels eps min_samples (List.replicate 40 ((0 : Rat), (0 : Rat))) =
      List.replicate 40 0 ∧
    ¬ dbscanLabels eps min_samples (List.replicate 40 ((0 : Rat), (0 : Rat))) =
      List.replicate 40 (-1) := by
  have h := dbscan_identical eps min_samples
    (List.replicate 40 ((0 : Rat), (0 : Rat))) ((0 : Rat), (0 : Rat))
    (fun q hq => List.eq_of_mem_replicate hq) (by decide) (by decide)
  rw [List.length_replicate] at h
  refine ⟨h, ?_⟩
  rw [h]
  decide

/-- C7 (amended): degenerate clustering input yields all-noise labels
and no error exactly in these cases — fewer than `min_samples` points,
or `min_samples` at least 2 with every pair of distinct points at
standardized distance strictly greater than `eps`. (All-identical input
is all-noise only when the point count is below `min_samples`;
otherwise every point is core and the input forms one cluster, per the
counterexample.) -/
theorem C7_degenerate_noise (e : Rat) (m : Nat) (pts : List (Rat × Rat))
    (h : pts.length < m ∨ (2 ≤ m ∧ ∀ a b, a < pts.length → b < pts.length → a ≠ b →
      e * e < sqDist (pts.getD a (0, 0)) (pts.getD b (0, 0)))) :
    dbscanLabels e m pts = List.replicate pts.length (-1) := by
  apply dbscanLabels_noise
  intro i hi
  rcases h with h | ⟨hm, hfar⟩
  · exact isCore_false_of_short e m pts h i
  · exact isCore_false_of_far e m pts hm hfar i hi

/-- Witness for amended C7: a single point is fewer than the configured
`min_samples = 40`, so it is labelled noise −1. -/
theorem C7_degenerate_noise_witness :
    [((0 : Rat), (0 : Rat))].length < min_samples ∧
    dbscanLabels eps min_samples [((0 : Rat), (0 : Rat))] = List.replicate 1 (-1) :=
  ⟨by decide,
    C7_degenerate_noise eps min_samples [((0 : Rat), (0 : Rat))] (Or.inl (by decide))⟩

end Taxi
